import Mathlib

/-!
Shallow embedding of the Software Heritage Vault backend
(`swh/vault/backend.py`) and of the git-bare cooker
(`swh/vault/cookers/git_bare.py`).

The database state (tables `vault_bundle`, `vault_notif_email`,
`vault_batch`, `vault_batch_bundle`), the blob cache and the scheduler
task queue are modelled explicitly as a `VaultState` record; each
backend method becomes a Lean function threading that state, returning
`Except VaultErr _` where the Python raises.
-/

/-- Status of a cooking task, the `task_status` enum of `vault_bundle`. -/
inductive TaskStatus
  | new
  | pending
  | done
  | failed
deriving DecidableEq, Repr

/-- Python exceptions that the modelled code can raise.
`notFound` is `swh.vault.exc.NotFoundExc`; `assertionError` an `assert`
failure; `keyError k` a dict lookup failure on key `k`; `unboundLocalError n`
a read of the local variable `n` before assignment; `notImplementedError`
the `NotImplementedError` raise in `push_snapshot_subgraph`. -/
inductive VaultErr
  | notFound
  | assertionError
  | keyError (k : String)
  | unboundLocalError (n : String)
  | notImplementedError
deriving DecidableEq, Repr

/-- One row of the `vault_bundle` table. `rowId` is the serial `id`
column, `btype` the `type` column. -/
structure Bundle where
  rowId : Nat
  btype : String
  swhid : String
  taskId : Option Nat
  taskStatus : TaskStatus
  sticky : Bool
  tsCreated : Nat
  tsDone : Option Nat
  tsLastAccess : Nat
  progressMsg : Option String
deriving DecidableEq, Repr

/-- The persistent state of the vault backend: the four database tables,
the blob cache, and the externally visible side effects (sent mails,
dispatched scheduler tasks). Timestamps are abstract `Nat` clock values. -/
structure VaultState where
  bundles : List Bundle
  /-- Rows of `vault_notif_email`: (email, bundle type, swhid). -/
  notifEmails : List (String × String × String)
  /-- Ids of `vault_batch` rows. -/
  batches : List Nat
  /-- Rows of `vault_batch_bundle`: (batch_id, bundle_id). -/
  batchBundles : List (Nat × Nat)
  /-- The `VaultCache` blob store: key (bundle type, swhid) to raw bytes. -/
  cache : List ((String × String) × String)
  /-- Log of notification mails sent: (email, type, swhid, status). -/
  sentMails : List (String × String × String × TaskStatus)
  /-- Log of cooking tasks dispatched to the scheduler: (type, swhid). -/
  tasks : List (String × String)
  nextRowId : Nat
  nextTaskId : Nat
  nextBatchId : Nat
deriving DecidableEq, Repr

/-- The `WHERE type = %s AND swhid = %s` predicate used throughout. -/
def isKey (bt sw : String) (b : Bundle) : Bool :=
  b.btype == bt && b.swhid == sw

/-- Embeds `VaultBackend.progress` with `raise_notfound=False`: the
`SELECT ... FROM vault_bundle WHERE type = %s AND swhid = %s` +
`fetchone()`, returning the first matching row if any. -/
def progressOpt (bundles : List Bundle) (bt sw : String) : Option Bundle :=
  bundles.find? (isKey bt sw)

/-- Lookup in the `VaultCache` blob store. -/
def cacheGet (cache : List ((String × String) × String)) (bt sw : String) :
    Option String :=
  (cache.find? (fun e => e.1.1 == bt && e.1.2 == sw)).map (·.2)

/-- Embeds `VaultCache.is_cached`. -/
def isCached (cache : List ((String × String) × String)) (bt sw : String) :
    Bool :=
  (cacheGet cache bt sw).isSome

/-- Embeds the `DELETE FROM vault_bundle WHERE type = %s AND swhid = %s`
statement of `VaultBackend.cook`. -/
def deleteBundle (bt sw : String) (st : VaultState) : VaultState :=
  { st with bundles := st.bundles.filter (fun b => !(isKey bt sw b)) }

/-- Embeds `VaultBackend.add_notif_email`: insert a row into
`vault_notif_email`. -/
def addNotifEmail (email bt sw : String) (st : VaultState) : VaultState :=
  { st with notifEmails := st.notifEmails ++ [(email, bt, sw)] }

/-- Embeds `VaultBackend.send_notification` as called from `cook`
(with `n_id = None`, so no `vault_notif_email` row is deleted): the mail
is an external side effect, logged in `sentMails`. -/
def sendNotification (email bt sw : String) (status : TaskStatus)
    (st : VaultState) : VaultState :=
  { st with sentMails := st.sentMails ++ [(email, bt, sw, status)] }

/-- Embeds `VaultBackend.create_task`. `checkExists` abstracts the
result of `cooker.check_exists()` against the object store; the row's
`task_status` defaults to `new`.
(Modelled from the spec: the SQL schema giving the column default
`task_status = 'new'` and `ts_created/ts_last_access = NOW()` is not in
the sources; §4.1 states a fresh row is created in state `new`.) -/
def createTask (checkExists : Bool) (now : Nat) (bt sw : String)
    (sticky : Bool) (st : VaultState) : Except VaultErr VaultState :=
  if !checkExists then .error .notFound
  else
    let row : Bundle :=
      { rowId := st.nextRowId, btype := bt, swhid := sw, taskId := none,
        taskStatus := .new, sticky := sticky, tsCreated := now,
        tsDone := none, tsLastAccess := now, progressMsg := none }
    let st1 : VaultState :=
      { st with bundles := st.bundles ++ [row],
                nextRowId := st.nextRowId + 1 }
    let taskId := st1.nextTaskId
    let st2 : VaultState :=
      { st1 with tasks := st1.tasks ++ [(bt, sw)],
                 nextTaskId := st1.nextTaskId + 1 }
    .ok { st2 with
          bundles := st2.bundles.map
            (fun b => if isKey bt sw b then { b with taskId := some taskId }
                      else b) }

/-- Embeds `VaultBackend.cook`. `cookerTypes` abstracts the
`COOKER_TYPES` registry, `checkExists` the `cooker.check_exists()`
result inside `create_task`. Returns the bundle row reported to the
caller together with the updated state. -/
def cook (cookerTypes : List String) (checkExists : Bool) (now : Nat)
    (bt sw : String) (sticky : Bool) (email : Option String)
    (st : VaultState) : Except VaultErr (Bundle × VaultState) :=
  let info := progressOpt st.bundles bt sw
  if !(cookerTypes.contains bt) then .error .notFound
  else
    let step1 : Option Bundle × VaultState :=
      match info with
      | some r =>
        if r.taskStatus = .failed then (none, deleteBundle bt sw st)
        else (some r, st)
      | none => (none, st)
    let info1 := step1.1
    let st1 := step1.2
    match (if info1.isNone then createTask checkExists now bt sw sticky st1
           else .ok st1) with
    | .error e => .error e
    | .ok st2 =>
      let st3 :=
        match email with
        | none => st2
        | some e =>
          match info1 with
          | some r =>
            if r.taskStatus = .done then sendNotification e bt sw r.taskStatus st2
            else addNotifEmail e bt sw st2
          | none => addNotifEmail e bt sw st2
      match progressOpt st3.bundles bt sw with
      | some r => .ok (r, st3)
      | none => .error .notFound

/-- Embeds `VaultBackend.update_access_ts`: `UPDATE vault_bundle SET
ts_last_access = NOW() WHERE type = %s AND swhid = %s`. -/
def updateAccessTs (now : Nat) (bt sw : String) (st : VaultState) :
    VaultState :=
  { st with
    bundles := st.bundles.map
      (fun b => if isKey bt sw b then { b with tsLastAccess := now } else b) }

/-- Embeds `VaultBackend.is_available`: the row exists, its
`task_status` is `done`, and the cache holds the blob. -/
def isAvailable (st : VaultState) (bt sw : String) : Bool :=
  match progressOpt st.bundles bt sw with
  | some info => info.taskStatus == .done && isCached st.cache bt sw
  | none => false

/-- Embeds `VaultBackend.fetch` with the default `raise_notfound=True`:
raise `NotFoundExc` unless available, else stamp `ts_last_access` and
return the cached bytes. -/
def fetch (now : Nat) (bt sw : String) (st : VaultState) :
    Except VaultErr (String × VaultState) :=
  if isAvailable st bt sw then
    let st1 := updateAccessTs now bt sw st
    match cacheGet st.cache bt sw with
    | some blob => .ok (blob, st1)
    | none => .error .notFound
  else .error .notFound

/-- Timestamp column selected by the eviction ordering key `byKey`
(`ts_created`, `ts_done` or `ts_last_access`); `ts_done` may be NULL. -/
def tsVal (byKey : String) (b : Bundle) : Option Nat :=
  if byKey = "created" then some b.tsCreated
  else if byKey = "done" then b.tsDone
  else some b.tsLastAccess

/-- Sort key for `ORDER BY ts_{byKey}`: Postgres ASC puts NULLs last,
encoded as a lexicographic (flag, value) pair with flag 1 for NULL. -/
def tsSortKey (byKey : String) (b : Bundle) : Nat × Nat :=
  match tsVal byKey b with
  | some t => (0, t)
  | none => (1, 0)

/-- Boolean comparison realising `ORDER BY ts_{byKey}` ascending. -/
def tsLe (byKey : String) (a b : Bundle) : Bool :=
  decide ((tsSortKey byKey a).1 < (tsSortKey byKey b).1) ||
    ((tsSortKey byKey a).1 == (tsSortKey byKey b).1 &&
      decide ((tsSortKey byKey a).2 ≤ (tsSortKey byKey b).2))

/-- The non-sticky rows, `WHERE sticky = false` of `_cache_expire`. -/
def nonSticky (st : VaultState) : List Bundle :=
  st.bundles.filter (fun b => !b.sticky)

/-- Embeds `VaultBackend._cache_expire` given the rows selected by the
embedded `SELECT`: `DELETE FROM vault_bundle WHERE ctid IN (...)
RETURNING type, swhid`, then one `cache.delete` per returned row. -/
def cacheExpireRows (selected : List Bundle) (st : VaultState) :
    VaultState :=
  let remaining := st.bundles.filter
    (fun b => !((selected.map (·.rowId)).contains b.rowId))
  let newCache := selected.foldl
    (fun c d => c.filter (fun e => !(e.1.1 == d.btype && e.1.2 == d.swhid)))
    st.cache
  { st with bundles := remaining, cache := newCache }

/-- Embeds `VaultBackend.cache_expire_oldest`: `assert by in ("created",
"done", "last_access")`, then delete the `n` first non-sticky rows in
`ORDER BY ts_{by}` order. -/
def cacheExpireOldest (n : Nat) (byKey : String) (st : VaultState) :
    Except VaultErr VaultState :=
  if byKey = "created" || byKey = "done" || byKey = "last_access" then
    .ok (cacheExpireRows (((nonSticky st).mergeSort (tsLe byKey)).take n) st)
  else .error .assertionError

/-- Embeds `VaultBackend.cache_expire_until`: `assert by in (...)`,
then delete the non-sticky rows with `ts_{by} <= date` (a NULL
`ts_done` compares as unknown and is not selected). -/
def cacheExpireUntil (date : Nat) (byKey : String) (st : VaultState) :
    Except VaultErr VaultState :=
  if byKey = "created" || byKey = "done" || byKey = "last_access" then
    .ok (cacheExpireRows
      ((nonSticky st).filter
        (fun b => match tsVal byKey b with
                  | some t => decide (t ≤ date)
                  | none => false))
      st)
  else .error .assertionError

/-- String rendering of a `task_status` value. -/
def statusText : TaskStatus → String
  | .new => "new"
  | .pending => "pending"
  | .done => "done"
  | .failed => "failed"

/-- The dict produced for each row fetched by the `SELECT` of
`batch_progress`: its keys are exactly the selected column names
(`id, type, swhid, task_id, task_status, sticky, ts_created, ts_done,
ts_last_access, progress_msg`). -/
def batchRowDict (b : Bundle) : List (String × String) :=
  [("id", toString b.rowId),
   ("type", b.btype),
   ("swhid", b.swhid),
   ("task_id", match b.taskId with | some t => toString t | none => "None"),
   ("task_status", statusText b.taskStatus),
   ("sticky", toString b.sticky),
   ("ts_created", toString b.tsCreated),
   ("ts_done", match b.tsDone with | some t => toString t | none => "None"),
   ("ts_last_access", toString b.tsLastAccess),
   ("progress_msg", b.progressMsg.getD "None")]

/-- Python dict subscript `d[k]`: raises `KeyError(k)` when absent. -/
def dictGet (d : List (String × String)) (k : String) :
    Except VaultErr String :=
  match d.find? (fun e => e.1 == k) with
  | some e => .ok e.2
  | none => .error (.keyError k)

/-- The result dict of `batch_progress`: the member rows, their number,
and one counter per status name. -/
structure BatchProgressResult where
  total : Nat
  counts : List (String × Nat)
deriving DecidableEq, Repr

/-- Embeds `VaultBackend.batch_progress`: fetch the member rows of the
batch (join of `vault_batch_bundle` with `vault_bundle`), raise
`NotFoundExc` when there are none, then build
`collections.Counter(b["status"] for b in bundles)` — the subscript is
`"status"`, as in the source, while the selected column is named
`task_status`. -/
def batchProgress (st : VaultState) (batchId : Nat) :
    Except VaultErr BatchProgressResult :=
  let rows := (st.batchBundles.filter (fun m => m.1 == batchId)).filterMap
    (fun m => st.bundles.find? (fun b => b.rowId == m.2))
  if rows.isEmpty then .error .notFound
  else
    match rows.mapM (fun b => dictGet (batchRowDict b) "status") with
    | .error e => .error e
    | .ok statuses =>
      .ok { total := rows.length,
            counts := [("new", statuses.count "new"),
                       ("pending", statuses.count "pending"),
                       ("done", statuses.count "done"),
                       ("failed", statuses.count "failed")] }

/-- Embeds `VaultBackend.batch_cook`: validate every member's bundle
type up front (raising `NotFoundExc` at the first unregistered one,
before any SQL has run), then create the batch row, purge failed member
rows, insert missing member rows (`ON CONFLICT DO NOTHING`), link them
to the batch, and dispatch one task per member that had no task yet. -/
def batchCook (cookerTypes : List String) (now : Nat)
    (batch : List (String × String)) (st : VaultState) :
    Except VaultErr (Nat × VaultState) :=
  match batch.find? (fun p => !(cookerTypes.contains p.1)) with
  | some _ => .error .notFound
  | none =>
    let batchId := st.nextBatchId
    let st1 : VaultState :=
      { st with batches := st.batches ++ [batchId],
                nextBatchId := st.nextBatchId + 1 }
    let st2 : VaultState :=
      { st1 with
        bundles := st1.bundles.filter
          (fun b => !(b.taskStatus == .failed &&
                      batch.contains (b.btype, b.swhid))) }
    let st3 := batch.foldl
      (fun acc p =>
        if (progressOpt acc.bundles p.1 p.2).isSome then acc
        else
          { acc with
            bundles := acc.bundles ++
              [{ rowId := acc.nextRowId, btype := p.1, swhid := p.2,
                 taskId := none, taskStatus := .new, sticky := false,
                 tsCreated := now, tsDone := none, tsLastAccess := now,
                 progressMsg := none }],
            nextRowId := acc.nextRowId + 1 })
      st2
    let rows := st3.bundles.filter
      (fun b => batch.contains (b.btype, b.swhid))
    let st4 : VaultState :=
      { st3 with batchBundles := st3.batchBundles ++
          rows.map (fun b => (batchId, b.rowId)) }
    let batchNew := rows.filter (fun b => b.taskId.isNone)
    let st5 := batchNew.foldl
      (fun acc b =>
        { acc with
          tasks := acc.tasks ++ [(b.btype, b.swhid)],
          nextTaskId := acc.nextTaskId + 1,
          bundles := acc.bundles.map
            (fun c => if isKey b.btype b.swhid c then
                        { c with taskId := some acc.nextTaskId }
                      else c) })
      st4
    .ok (batchId, st5)

/-! Embedding of `swh/vault/cookers/git_bare.py`. Object ids
(`Sha1Git`) are modelled by their hex string, so `hash_to_hex` is the
identity. -/

/-- Hex representation of a git object id. -/
abbrev Sha1Git := String

/-- Embeds the filtering comprehension of `GitBareCooker._push`:
`[id_ for id_ in obj_ids if id_ not in self._seen]`. The membership
test consults `seen` as it was at the start of the call —
`self._seen.update(revision_ids)` only runs afterwards — so duplicate
ids inside one call's input all pass the filter. -/
def pushNew (seen : List Sha1Git) (objIds : List Sha1Git) : List Sha1Git :=
  objIds.filter (fun i => !(seen.contains i))

/-- Embeds one `GitBareCooker._push` call: returns the updated
(seen, stack) pair (`self._seen.update(...)`; `stack.extend(...)`). -/
def pushCall (seen stack objIds : List Sha1Git) :
    List Sha1Git × List Sha1Git :=
  (seen ++ pushNew seen objIds, stack ++ pushNew seen objIds)

/-- All ids pushed (in order) by a sequence of `_push` calls, threading
the `seen` set through; each element of `calls` is one call's input
iterable. Which of the four stacks receives a call's ids does not
affect which ids are pushed, so the stacks are left implicit here. -/
def runPushes (seen : List Sha1Git) : List (List Sha1Git) → List Sha1Git
  | [] => []
  | c :: rest => pushNew seen c ++ runPushes (seen ++ pushNew seen c) rest

/-- Embeds `identifiers.git_object_header("blob", len(content))`
followed by the payload: the canonical git blob framing. -/
def blobObject (content : String) : String :=
  "blob " ++ toString content.length ++ String.singleton (Char.ofNat 0)
    ++ content

/-- Placeholder payload for contents whose lookup returned nothing.
(Modelled from the spec: `SKIPPED_MESSAGE` lives in
`swh/vault/to_disk.py`, which is not among the sources; the spec only
requires a well-known fixed payload.) -/
def SKIPPED_MESSAGE : String :=
  "This content has not been retrieved in the Software Heritage archive due to its size."

/-- Placeholder payload for contents with status `hidden`.
(Modelled from the spec: `HIDDEN_MESSAGE` lives in
`swh/vault/to_disk.py`, which is not among the sources; the spec only
requires a well-known fixed payload.) -/
def HIDDEN_MESSAGE : String :=
  "This content is hidden."

/-- Embeds `GitBareCooker._obj_relative_path`: two hex chars of shard
directory, the rest as filename. -/
def objRelativePath (objId : Sha1Git) : String :=
  "objects/" ++ objId.take 2 ++ "/" ++ objId.drop 2

/-- Embeds `GitBareCooker._expect_mismatched_object_error`: the exact
git-fsck error strings registered for an intentionally mismatched
object (Git < 2.21 wording, Git >= 2.21 wording, the corrupt-or-missing
variant, and the missing-blob line). -/
def expectMismatchedObjectError (objId : Sha1Git) : List String :=
  ["error: sha1 mismatch for ./" ++ objRelativePath objId
     ++ " (expected " ++ objId ++ ")",
   "error: hash mismatch for ./" ++ objRelativePath objId
     ++ " (expected " ++ objId ++ ")",
   "error: " ++ objId ++ ": object corrupt or missing: ./"
     ++ objRelativePath objId,
   "missing blob " ++ objId]

/-- Embeds the error classification of `GitBareCooker.git_fsck`: keep
the non-empty lines that do not start with "warning ", and subtract the
expected set; only the remainder is logged as unexpected. -/
def gitFsckUnexpected (fsckOutput : List String) (expected : List String) :
    List String :=
  (fsckOutput.filter
    (fun e => !(e == "") && !(e.startsWith "warning "))).filter
    (fun e => !(expected.contains e))

/-- Visibility status of a content object in the archive. -/
inductive ContentStatus
  | visible
  | hidden
  | absent
deriving DecidableEq, Repr

/-- Record returned by `storage.content_get(ids, "sha1_git")` for a
known content: its `sha1` (the data-store key) and its status. -/
structure ContentRec where
  sha1 : Sha1Git
  sha1Git : Sha1Git
  status : ContentStatus
deriving DecidableEq, Repr

/-- Embeds the first loop of `GitBareCooker.load_contents`: classify
each id by its lookup result — `None` writes the skipped placeholder
and registers the expected fsck errors, `visible` is collected for the
data fetch, `hidden` writes the hidden placeholder and registers the
errors, `absent` trips the `assert False`. Returns (writes, expected
fsck error strings, visible contents). -/
def classifyContents (contentGet : Sha1Git → Option ContentRec) :
    List Sha1Git →
    Except VaultErr
      (List (Sha1Git × String) × List String × List ContentRec)
  | [] => .ok ([], [], [])
  | objId :: rest =>
    match contentGet objId with
    | none =>
      match classifyContents contentGet rest with
      | .error e => .error e
      | .ok (ws, errs, vis) =>
        .ok ((objId, blobObject SKIPPED_MESSAGE) :: ws,
             expectMismatchedObjectError objId ++ errs, vis)
    | some c =>
      match c.status with
      | .visible =>
        match classifyContents contentGet rest with
        | .error e => .error e
        | .ok (ws, errs, vis) => .ok (ws, errs, c :: vis)
      | .hidden =>
        match classifyContents contentGet rest with
        | .error e => .error e
        | .ok (ws, errs, vis) =>
          .ok ((objId, blobObject HIDDEN_MESSAGE) :: ws,
               expectMismatchedObjectError objId ++ errs, vis)
      | .absent => .error .assertionError

/-- Embeds the second loop of `load_contents` (the
`self.objstorage is None` branch): fetch each visible content's data by
`sha1`; a missing datum is logged and skipped, otherwise the blob is
written under its `sha1_git`. -/
def loadVisibleContents (dataGet : Sha1Git → Option String)
    (vis : List ContentRec) : List (Sha1Git × String) :=
  vis.filterMap
    (fun c => (dataGet c.sha1).map (fun d => (c.sha1Git, blobObject d)))

/-- Result of running `load_contents`: the objects written to disk and
the expected git-fsck error strings registered. -/
structure CookOutput where
  writes : List (Sha1Git × String)
  expectedFsckErrors : List String
deriving DecidableEq, Repr

/-- Embeds `GitBareCooker.load_contents` end to end. -/
def loadContents (contentGet : Sha1Git → Option ContentRec)
    (dataGet : Sha1Git → Option String) (objIds : List Sha1Git) :
    Except VaultErr CookOutput :=
  match classifyContents contentGet objIds with
  | .error e => .error e
  | .ok (ws, errs, vis) =>
    .ok { writes := ws ++ loadVisibleContents dataGet vis,
          expectedFsckErrors := errs }

/-- Target type of a snapshot branch (`swh.model.model.TargetType`). -/
inductive TargetType
  | content
  | directory
  | revision
  | release
  | snapshot
  | alias
deriving DecidableEq, Repr

/-- A snapshot branch: target id and target type. -/
structure SnapshotBranch where
  target : Sha1Git
  targetType : TargetType
deriving DecidableEq, Repr

/-- A snapshot: its id and its named branches (a dangling branch is
`none`, as returned by `snapshot_get_all_branches`). -/
structure SnapshotRec where
  snapId : Sha1Git
  branches : List (String × Option SnapshotBranch)
deriving DecidableEq, Repr

/-- A revision record (`swh.model.model.Revision`), restricted to the
fields the cooker manipulates. -/
structure RevisionRec where
  author : String
  committer : String
  date : Nat
  committerDate : Nat
  message : String
  directory : Sha1Git
  parents : List Sha1Git
  synthetic : Bool
deriving DecidableEq, Repr

/-- A release record, restricted to the fields the cooker uses. -/
structure ReleaseRec where
  target : Sha1Git
  targetType : TargetType
deriving DecidableEq, Repr

/-- Root object type of the cooked bundle (`RootObjectType`). -/
inductive RootType
  | directory
  | revision
  | snapshot
deriving DecidableEq, Repr

/-- Result of `write_refs`: the revision objects written through
`write_revision_node`, and the ref files written as
(ref name, file content) pairs. -/
structure RefsOutput where
  revWrites : List (Sha1Git × RevisionRec)
  refs : List (String × String)
deriving DecidableEq, Repr

/-- Embeds `GitBareCooker.write_refs`. For a directory root, a
synthetic revision with message "Initial commit" pointing at the
directory is written and `refs/heads/master` points at its id; `revId`
abstracts `Revision.id`, the content hash computed by swh.model, and
`now` the truncated `datetime.now()` used for both dates. For a
revision root, `refs/heads/master` points at the root. For a snapshot
root with `snapshot = None`, refs were already written and nothing
happens; otherwise dangling branches are dropped and alias branches are
written as symbolic refs (`"ref: " + target`). -/
def writeRefs (revId : RevisionRec → Sha1Git) (objType : RootType)
    (objId : Sha1Git) (now : Nat) (snapshot : Option SnapshotRec) :
    RefsOutput :=
  match objType with
  | .directory =>
    let author := "swh-vault, git-bare cooker <robot@softwareheritage.org>"
    let revision : RevisionRec :=
      { author := author, committer := author, date := now,
        committerDate := now, message := "Initial commit",
        directory := objId, parents := [], synthetic := true }
    { revWrites := [(revId revision, revision)],
      refs := [("refs/heads/master", revId revision)] }
  | .revision =>
    { revWrites := [], refs := [("refs/heads/master", objId)] }
  | .snapshot =>
    match snapshot with
    | none => { revWrites := [], refs := [] }
    | some snap =>
      { revWrites := [],
        refs := snap.branches.filterMap
          (fun nb => nb.2.map
            (fun br => (nb.1,
              if br.targetType = .alias then "ref: " ++ br.target
              else br.target))) }

/-- In-memory traversal state of the cooker: the four work stacks, the
`seen` set, and the log of revision/release objects written so far. -/
structure CookerState where
  relStack : List Sha1Git
  revStack : List Sha1Git
  dirStack : List Sha1Git
  cntStack : List Sha1Git
  seen : List Sha1Git
  revWrites : List (Sha1Git × RevisionRec)
  relWrites : List (Sha1Git × ReleaseRec)
deriving DecidableEq, Repr

/-- `_push` onto the directory stack. -/
def pushDirs (ids : List Sha1Git) (cs : CookerState) : CookerState :=
  let pushed := pushNew cs.seen ids
  { cs with seen := cs.seen ++ pushed, dirStack := cs.dirStack ++ pushed }

/-- `_push` onto the content stack. -/
def pushCnts (ids : List Sha1Git) (cs : CookerState) : CookerState :=
  let pushed := pushNew cs.seen ids
  { cs with seen := cs.seen ++ pushed, cntStack := cs.cntStack ++ pushed }

/-- Embeds the storage fallback of `push_revision_subgraph` (no graph
collaborator, or revision absent from it): the `DFSRevisionsWalker`
ancestry walk, abstracted by `revLog`, yields the full revision
records; each is written via `write_revision_node` and its directory is
pushed onto the directory stack. -/
def pushRevisionSubgraphFallback
    (revLog : Sha1Git → List (Sha1Git × RevisionRec)) (objId : Sha1Git)
    (cs : CookerState) : CookerState :=
  (revLog objId).foldl
    (fun acc rev =>
      pushDirs [rev.2.directory] { acc with revWrites := acc.revWrites ++ [rev] })
    cs

/-- Embeds `push_releases_subgraphs` in the storage-fallback setting:
load and write the releases, then dispatch on each release's target
type; a release targeting a snapshot raises `NotImplementedError`.
The recursion on release-to-release targets is bounded by `fuel`
(content-hash graphs are acyclic, so any fuel larger than the chain
depth is exact; at fuel 0 the remaining ids are left unprocessed). -/
def pushReleasesSubgraphs (fuel : Nat)
    (releaseGet : Sha1Git → Option ReleaseRec)
    (revLog : Sha1Git → List (Sha1Git × RevisionRec))
    (objIds : List Sha1Git) (cs : CookerState) :
    Except VaultErr CookerState :=
  match fuel with
  | 0 => .ok cs
  | fuel1 + 1 =>
    match objIds with
    | [] => .ok cs
    | objId :: rest =>
      match releaseGet objId with
      | none => pushReleasesSubgraphs fuel1 releaseGet revLog rest cs
      | some release =>
        let cs1 : CookerState :=
          { cs with relWrites := cs.relWrites ++ [(objId, release)] }
        match release.targetType with
        | .revision =>
          pushReleasesSubgraphs fuel1 releaseGet revLog rest
            (pushRevisionSubgraphFallback revLog release.target cs1)
        | .directory =>
          pushReleasesSubgraphs fuel1 releaseGet revLog rest
            (pushDirs [release.target] cs1)
        | .content =>
          pushReleasesSubgraphs fuel1 releaseGet revLog rest
            (pushCnts [release.target] cs1)
        | .release =>
          match pushReleasesSubgraphs fuel1 releaseGet revLog
              [release.target] cs1 with
          | .error e => .error e
          | .ok cs2 => pushReleasesSubgraphs fuel1 releaseGet revLog rest cs2
        | .snapshot => .error .notImplementedError
        | .alias => .error .assertionError

/-- Embeds the branch loop of `push_snapshot_subgraph` in the
storage-fallback setting (`loaded_from_graph` false): dangling branches
are skipped with a warning, revision targets start an ancestry walk,
release targets go through `push_releases_subgraphs`, aliases are
skipped (the loop also visits their target branch), directory and
content targets are pushed on their stacks, and a branch whose target
type is `snapshot` reaches `if swhid.object_id != obj_id`, which reads
the local `swhid` that the skipped graph block never assigned and so
raises `UnboundLocalError`. -/
def processSnapshotBranches (fuel : Nat)
    (releaseGet : Sha1Git → Option ReleaseRec)
    (revLog : Sha1Git → List (Sha1Git × RevisionRec))
    (branches : List (String × Option SnapshotBranch)) (cs : CookerState) :
    Except VaultErr CookerState :=
  match branches with
  | [] => .ok cs
  | (_, none) :: rest => processSnapshotBranches fuel releaseGet revLog rest cs
  | (_, some branch) :: rest =>
    match branch.targetType with
    | .revision =>
      processSnapshotBranches fuel releaseGet revLog rest
        (pushRevisionSubgraphFallback revLog branch.target cs)
    | .release =>
      match pushReleasesSubgraphs fuel releaseGet revLog [branch.target] cs with
      | .error e => .error e
      | .ok cs1 => processSnapshotBranches fuel releaseGet revLog rest cs1
    | .alias => processSnapshotBranches fuel releaseGet revLog rest cs
    | .directory =>
      processSnapshotBranches fuel releaseGet revLog rest
        (pushDirs [branch.target] cs)
    | .content =>
      processSnapshotBranches fuel releaseGet revLog rest
        (pushCnts [branch.target] cs)
    | .snapshot => .error (.unboundLocalError "swhid")

/-- Embeds `push_snapshot_subgraph` when `self.graph` is `None`: the
whole graph block is skipped, `loaded_from_graph` stays `False`, and in
particular the local variable `swhid` (bound only by the
`for swhid in swhids` loop inside the graph block) is never assigned.
The snapshot's branches are walked with the storage only; a branch
whose target type is `snapshot` reaches the line
`if swhid.object_id != obj_id` which reads the unassigned `swhid` and
raises `UnboundLocalError`. On success `write_refs(snapshot=snapshot)`
runs last. -/
def pushSnapshotSubgraphNoGraph (fuel : Nat)
    (snapshotGet : Sha1Git → Option SnapshotRec)
    (releaseGet : Sha1Git → Option ReleaseRec)
    (revLog : Sha1Git → List (Sha1Git × RevisionRec))
    (revId : RevisionRec → Sha1Git) (now : Nat) (objId : Sha1Git)
    (cs : CookerState) : Except VaultErr (CookerState × RefsOutput) :=
  match snapshotGet objId with
  | none => .error .assertionError
  | some snapshot =>
    match processSnapshotBranches fuel releaseGet revLog snapshot.branches cs with
    | .error e => .error e
    | .ok cs1 => .ok (cs1, writeRefs revId .snapshot objId now (some snapshot))

/-! Shared helper lemmas. -/

/-- Membership in a `_push` filter result: in the input and not yet seen. -/
theorem mem_pushNew {seen objIds : List Sha1Git} {i : Sha1Git} :
    i ∈ pushNew seen objIds ↔ i ∈ objIds ∧ i ∉ seen := by
  simp [pushNew, List.mem_filter, List.elem_iff]

/-- A key-preserving conditional update leaves a list without matching
rows unchanged. -/
theorem map_update_of_no_match {bt sw : String} {l : List Bundle}
    {f : Bundle → Bundle} (h : ∀ b ∈ l, isKey bt sw b = false) :
    l.map (fun b => if isKey bt sw b then f b else b) = l := by
  rw [show l = l.map id by simp]
  rw [List.map_map]
  exact List.map_congr_left (fun b hb => by
    simp only [Function.comp, id]
    rw [h b (by simpa using hb)]
    simp)

/-- Searching the complement filter of a predicate finds nothing. -/
theorem find?_filter_not {α : Type} {p : α → Bool} {l : List α} :
    (l.filter (fun b => !(p b))).find? p = none := by
  rw [List.find?_eq_none]
  intro x hx
  rcases List.mem_filter.mp hx with ⟨-, hpx⟩
  simp only [Bool.not_eq_true'] at hpx
  simp [hpx]

/-- Counting the complement filter of a predicate yields zero. -/
theorem countP_filter_not {p : Bundle → Bool} {l : List Bundle} :
    (l.filter (fun b => !(p b))).countP p = 0 := by
  rw [List.countP_eq_zero]
  intro x hx
  rcases List.mem_filter.mp hx with ⟨-, hpx⟩
  simp only [Bool.not_eq_true'] at hpx
  simp [hpx]

/-- The row key predicate holds reflexively. -/
theorem isKey_self {bt sw : String} {b : Bundle}
    (h1 : b.btype = bt) (h2 : b.swhid = sw) : isKey bt sw b = true := by
  simp [isKey, h1, h2]

/-- The empty vault state used by witness theorems. -/
def emptyState : VaultState :=
  { bundles := [], notifEmails := [], batches := [], batchBundles := [],
    cache := [], sentMails := [], tasks := [], nextRowId := 1,
    nextTaskId := 1, nextBatchId := 1 }

/-- A sample cooked-and-cached bundle row used by witness theorems. -/
def sampleBundle : Bundle :=
  { rowId := 1, btype := "git_bare", swhid := "swh:1:dir:ab12",
    taskId := some 1, taskStatus := .done, sticky := false, tsCreated := 1,
    tsDone := some 2, tsLastAccess := 3, progressMsg := none }

/-- A vault state holding `sampleBundle` as done, with its blob cached
and linked into batch 7. -/
def sampleState : VaultState :=
  { bundles := [sampleBundle], notifEmails := [], batches := [7],
    batchBundles := [(7, 1)],
    cache := [(("git_bare", "swh:1:dir:ab12"), "TARBYTES")],
    sentMails := [], tasks := [("git_bare", "swh:1:dir:ab12")],
    nextRowId := 2, nextTaskId := 2, nextBatchId := 8 }

/-! Claim C4. -/

/-- C4, counterexample: a single `_push` call whose input iterable
contains the same id twice pushes it twice — the filter
`[id_ for id_ in obj_ids if id_ not in self._seen]` consults `seen`
before `self._seen.update` runs, so the claim that each object id is
pushed (and hence fetched and written) at most once fails on
within-call duplicates. -/
theorem push_duplicate_input_counterexample :
    ¬ (runPushes [] [["ab12", "ab12"]]).Nodup := by decide

/-- C4, amended: an id already in `seen` at the start of a `_push` call
is never pushed, and across any sequence of `_push` calls whose
individual input iterables are duplicate-free (as when each parent
pushes each child id in its own call) no id is ever pushed twice, so no
object is written to disk twice. -/
theorem push_at_most_once (seen : List Sha1Git) (calls : List (List Sha1Git))
    (h : ∀ c ∈ calls, c.Nodup) :
    (runPushes seen calls).Nodup ∧ ∀ i ∈ seen, i ∉ runPushes seen calls := by
  induction calls generalizing seen with
  | nil => simp [runPushes]
  | cons c rest ih =>
    have hc : c.Nodup := h c (by simp)
    have hrest : ∀ d ∈ rest, d.Nodup := fun d hd => h d (by simp [hd])
    obtain ⟨ihnd, ihseen⟩ := ih (seen ++ pushNew seen c) hrest
    constructor
    · rw [runPushes, List.nodup_append]
      refine ⟨List.Nodup.filter _ hc, ihnd, ?_⟩
      intro a ha
      exact ihseen a (by simp [List.mem_append, ha])
    · intro i hi
      rw [runPushes, List.mem_append]
      rintro (hmem | hmem)
      · exact (mem_pushNew.mp hmem).2 hi
      · exact ihseen i (by simp [List.mem_append, hi]) hmem

/-- C4 witness: concrete instantiation of `push_at_most_once`. -/
theorem push_at_most_once_witness :
    (runPushes ["aa"] [["bb"], ["bb", "cc"]]).Nodup ∧
      ∀ i ∈ ["aa"], i ∉ runPushes ["aa"] [["bb"], ["bb", "cc"]] :=
  push_at_most_once ["aa"] [["bb"], ["bb", "cc"]] (by decide)

/-! Claim C9. -/

/-- C9, counterexample: with the ordering key "oldest" (not one of
`created`, `done`, `last_access`), `cache_expire_oldest` and
`cache_expire_until` do not silently no-op: the
`assert by in ("created", "done", "last_access")` raises
`AssertionError` instead. -/
theorem cache_expire_invalid_key_counterexample :
    cacheExpireOldest 1 "oldest" sampleState = .error .assertionError ∧
      cacheExpireUntil 10 "oldest" sampleState = .error .assertionError := by
  constructor <;> rfl

/-- C9, amended: for every ordering key outside
{created, done, last_access} both eviction operations raise
`AssertionError` from their `assert` guard; the failure happens before
the `DELETE` query is built, so no ledger row and no cached blob is
touched (the error result carries no new state). -/
theorem cache_expire_invalid_key_raises (n date : Nat) (byKey : String)
    (st : VaultState)
    (h : byKey ∉ (["created", "done", "last_access"] : List String)) :
    cacheExpireOldest n byKey st = .error .assertionError ∧
      cacheExpireUntil date byKey st = .error .assertionError := by
  simp only [List.mem_cons, List.mem_singleton, not_or] at h
  obtain ⟨h1, h2, h3⟩ := h
  constructor
  · simp [cacheExpireOldest, h1, h2, h3]
  · simp [cacheExpireUntil, h1, h2, h3]

/-- C9 witness: concrete instantiation of
`cache_expire_invalid_key_raises` on the empty state. -/
theorem cache_expire_invalid_key_witness :
    cacheExpireOldest 2 "age" emptyState = .error .assertionError ∧
      cacheExpireUntil 5 "age" emptyState = .error .assertionError :=
  cache_expire_invalid_key_raises 2 5 "age" emptyState (by decide)

/-! Claim C8. -/

/-- C8: on a batch with one member whose `task_status` is `done`, the
totals computation of `batch_progress` reads `b["status"]` although the
`SELECT` only provides a `task_status` column, so the call raises
`KeyError("status")` instead of returning per-status totals (the
`NotFoundExc` branch for empty batches is unreachable here since the
batch is non-empty). -/
theorem batch_progress_status_keyerror :
    batchProgress sampleState 7 = .error (.keyError "status") := by
  rfl

/-! Claim C10. -/

/-- C10: if any member of the batch has an unregistered bundle type,
`batch_cook` raises `NotFoundExc` from the validation loop that runs
before any SQL statement; the error result carries no new state, so no
batch row, no `vault_bundle` change and no task dispatch happens. -/
theorem batch_cook_unknown_type (cookerTypes : List String) (now : Nat)
    (batch : List (String × String)) (st : VaultState)
    (h : ∃ p ∈ batch, p.1 ∉ cookerTypes) :
    batchCook cookerTypes now batch st = .error .notFound := by
  have hsome : (batch.find? (fun p => !(cookerTypes.contains p.1))).isSome := by
    rw [List.find?_isSome]
    obtain ⟨p, hp, hnp⟩ := h
    exact ⟨p, hp, by simp [List.elem_iff, hnp]⟩
  obtain ⟨q, hq⟩ := Option.isSome_iff_exists.mp hsome
  unfold batchCook
  rw [hq]

/-- C10 witness: concrete instantiation of `batch_cook_unknown_type`. -/
theorem batch_cook_unknown_type_witness :
    batchCook ["git_bare"] 4 [("flat", "swh:1:dir:ab12")] emptyState =
      .error .notFound :=
  batch_cook_unknown_type ["git_bare"] 4 [("flat", "swh:1:dir:ab12")]
    emptyState ⟨("flat", "swh:1:dir:ab12"), by decide, by decide⟩

/-! Claim C7. -/

/-- C7: for every directory root `d`, `write_refs` writes exactly one
synthesized revision, whose `directory` field is `d` and whose message
is "Initial commit", and exactly one named ref, `refs/heads/master`,
pointing at that revision's id. -/
theorem write_refs_directory_root (revId : RevisionRec → Sha1Git)
    (d : Sha1Git) (now : Nat) :
    ∃ rev : RevisionRec,
      (writeRefs revId .directory d now none).revWrites = [(revId rev, rev)] ∧
      rev.directory = d ∧ rev.message = "Initial commit" ∧
      rev.synthetic = true ∧
      (writeRefs revId .directory d now none).refs =
        [("refs/heads/master", revId rev)] :=
  ⟨_, rfl, rfl, rfl, rfl, rfl⟩

/-! Claim C6. -/

/-- C6: cooking a snapshot that contains a branch whose target is a
different snapshot does not raise the validation error the spec
describes: in the storage-fallback path (no graph collaborator, the
default) the guard `if swhid.object_id != obj_id` reads the local
`swhid` that was never assigned and the run dies with
`UnboundLocalError("swhid")` — here evaluated on a concrete snapshot
`aaaa` with the single branch `refs/heads/main` targeting snapshot
`bbbb`. -/
theorem nested_snapshot_unbound_local :
    pushSnapshotSubgraphNoGraph 10
      (fun s => if s = "aaaa"
        then some { snapId := "aaaa",
                    branches := [("refs/heads/main",
                      some { target := "bbbb", targetType := .snapshot })] }
        else none)
      (fun _ => none) (fun _ => []) (fun _ => "ffff") 0 "aaaa"
      { relStack := [], revStack := [], dirStack := [], cntStack := [],
        seen := [], revWrites := [], relWrites := [] }
      = .error (.unboundLocalError "swhid") := by
  rfl

/-! Claim C2. -/

/-- C2: `fetch` raises `NotFoundExc` exactly when it is not the case
that the ledger row exists with `task_status = done` and the cache
holds the blob; when both hold it returns exactly the cached bytes and
the returned state has the row's `ts_last_access` stamped to the
current clock, with the cache unchanged. -/
theorem fetch_spec (now : Nat) (bt sw : String) (st : VaultState) :
    (fetch now bt sw st = .error .notFound ↔
      ¬ ∃ r, progressOpt st.bundles bt sw = some r ∧ r.taskStatus = .done ∧
          isCached st.cache bt sw = true) ∧
    (∀ r blob, progressOpt st.bundles bt sw = some r →
      r.taskStatus = .done → cacheGet st.cache bt sw = some blob →
      ∃ st1, fetch now bt sw st = .ok (blob, st1) ∧
        progressOpt st1.bundles bt sw = some { r with tsLastAccess := now } ∧
        st1.cache = st.cache) := by
  constructor
  · by_cases hAv : isAvailable st bt sw = true
    · have hex : ∃ r, progressOpt st.bundles bt sw = some r ∧
          r.taskStatus = .done ∧ isCached st.cache bt sw = true := by
        unfold isAvailable at hAv
        cases hp : progressOpt st.bundles bt sw with
        | none => rw [hp] at hAv; cases hAv
        | some r =>
          rw [hp] at hAv
          simp only [Bool.and_eq_true, beq_iff_eq] at hAv
          exact ⟨r, rfl, hAv.1, hAv.2⟩
      obtain ⟨r, hp, hd, hcac⟩ := hex
      obtain ⟨blob, hblob⟩ := Option.isSome_iff_exists.mp hcac
      have hok : fetch now bt sw st = .ok (blob, updateAccessTs now bt sw st) := by
        simp [fetch, hAv, hblob]
      rw [hok]
      constructor
      · intro h; cases h
      · intro hno; exact absurd ⟨r, hp, hd, hcac⟩ hno
    · have hAv0 : isAvailable st bt sw = false := by
        simpa using hAv
      have herr : fetch now bt sw st = .error .notFound := by
        simp [fetch, hAv0]
      rw [herr]
      simp only [true_iff]
      rintro ⟨r, hp, hd, hcac⟩
      have : isAvailable st bt sw = true := by
        simp [isAvailable, hp, hd, hcac]
      rw [hAv0] at this
      cases this
  · intro r blob hp hd hblob
    have hcac : isCached st.cache bt sw = true := by
      simp [isCached, hblob]
    have hAv : isAvailable st bt sw = true := by
      simp [isAvailable, hp, hd, hcac]
    refine ⟨updateAccessTs now bt sw st, by simp [fetch, hAv, hblob], ?_, rfl⟩
    have hkey : isKey bt sw r = true := List.find?_some hp
    have hfg : (fun b => isKey bt sw b) ∘
        (fun b => if isKey bt sw b then { b with tsLastAccess := now }
                  else b) = fun b => isKey bt sw b := by
      funext b
      by_cases hb : isKey bt sw b = true
      · simp only [Function.comp, hb, if_true]
        simpa [isKey] using hb
      · simp only [Function.comp, Bool.not_eq_true] at hb
        simp [Function.comp, hb]
    calc progressOpt (updateAccessTs now bt sw st).bundles bt sw
        = (st.bundles.find? (isKey bt sw)).map
            (fun b => if isKey bt sw b then { b with tsLastAccess := now }
                      else b) := by
          show (st.bundles.map _).find? _ = _
          rw [List.find?_map]
          rw [show ((isKey bt sw) ∘ _) = isKey bt sw from hfg]
      _ = some { r with tsLastAccess := now } := by
          rw [show st.bundles.find? (isKey bt sw) = some r from hp]
          simp [hkey]

/-- C2 witness: concrete instantiation of `fetch_spec` on
`sampleState`, which is done and cached. -/
theorem fetch_spec_witness :
    ∃ st1, fetch 9 "git_bare" "swh:1:dir:ab12" sampleState =
        .ok ("TARBYTES", st1) ∧
      progressOpt st1.bundles "git_bare" "swh:1:dir:ab12" =
        some { sampleBundle with tsLastAccess := 9 } ∧
      st1.cache = sampleState.cache :=
  (fetch_spec 9 "git_bare" "swh:1:dir:ab12" sampleState).2 sampleBundle
    "TARBYTES" (by rfl) (by rfl) (by rfl)

/-! Claim C5. -/

/-- Helper for C5: when no requested id resolves to an `absent` content
(which `content_get` never returns, per its own assert), the
classification loop of `load_contents` succeeds, and every id whose
lookup returned `None` (resp. a `hidden` content) has its placeholder
write and all four registered fsck error strings in the result. -/
theorem classifyContents_spec (contentGet : Sha1Git → Option ContentRec)
    (objIds : List Sha1Git)
    (hnoabs : ∀ j ∈ objIds, ∀ c, contentGet j = some c → c.status ≠ .absent) :
    ∃ ws errs vis, classifyContents contentGet objIds = .ok (ws, errs, vis) ∧
      ∀ i ∈ objIds,
        (contentGet i = none →
          (i, blobObject SKIPPED_MESSAGE) ∈ ws ∧
          ∀ e ∈ expectMismatchedObjectError i, e ∈ errs) ∧
        (∀ c, contentGet i = some c → c.status = .hidden →
          (i, blobObject HIDDEN_MESSAGE) ∈ ws ∧
          ∀ e ∈ expectMismatchedObjectError i, e ∈ errs) := by
  induction objIds with
  | nil => exact ⟨[], [], [], rfl, by simp⟩
  | cons objId rest ih =>
    have hnr : ∀ j ∈ rest, ∀ c, contentGet j = some c → c.status ≠ .absent :=
      fun j hj => hnoabs j (by simp [hj])
    obtain ⟨ws, errs, vis, heq, hmem⟩ := ih hnr
    cases hcg : contentGet objId with
    | none =>
      refine ⟨(objId, blobObject SKIPPED_MESSAGE) :: ws,
        expectMismatchedObjectError objId ++ errs, vis, ?_, ?_⟩
      · simp only [classifyContents, hcg, heq]
      · intro i hi
        rcases List.mem_cons.mp hi with rfl | hir
        · refine ⟨fun _ => ⟨by simp, fun e he => by simp [he]⟩, ?_⟩
          intro c hc; rw [hcg] at hc; cases hc
        · constructor
          · intro hnone
            obtain ⟨hw, he⟩ := (hmem i hir).1 hnone
            exact ⟨by simp [hw], fun e hee => by simp [he e hee]⟩
          · intro c hc hh
            obtain ⟨hw, he⟩ := (hmem i hir).2 c hc hh
            exact ⟨by simp [hw], fun e hee => by simp [he e hee]⟩
    | some c =>
      cases hst : c.status with
      | visible =>
        refine ⟨ws, errs, c :: vis, ?_, ?_⟩
        · simp only [classifyContents, hcg, hst, heq]
        · intro i hi
          rcases List.mem_cons.mp hi with rfl | hir
          · constructor
            · intro hnone; rw [hcg] at hnone; cases hnone
            · intro c1 hc1 hh1
              rw [hcg] at hc1
              cases hc1
              rw [hst] at hh1
              cases hh1
          · exact hmem i hir
      | hidden =>
        refine ⟨(objId, blobObject HIDDEN_MESSAGE) :: ws,
          expectMismatchedObjectError objId ++ errs, vis, ?_, ?_⟩
        · simp only [classifyContents, hcg, hst, heq]
        · intro i hi
          rcases List.mem_cons.mp hi with rfl | hir
          · constructor
            · intro hnone; rw [hcg] at hnone; cases hnone
            · intro c1 hc1 _
              rw [hcg] at hc1
              cases hc1
              exact ⟨by simp, fun e he => by simp [he]⟩
          · constructor
            · intro hnone
              obtain ⟨hw, he⟩ := (hmem i hir).1 hnone
              exact ⟨by simp [hw], fun e hee => by simp [he e hee]⟩
            · intro c1 hc1 hh1
              obtain ⟨hw, he⟩ := (hmem i hir).2 c1 hc1 hh1
              exact ⟨by simp [hw], fun e hee => by simp [he e hee]⟩
      | absent => exact absurd hst (hnoabs objId (by simp) c hcg)

/-- C5: a blob id requested during cooking whose content lookup returns
nothing, or whose status is `hidden`, does not fail the cook:
`load_contents` succeeds, the fixed placeholder payload is written in
the blob's place, the exact four git-fsck error strings that the
intentional hash mismatch will produce are pre-registered, and the
post-cook `git_fsck` classification never reports those strings as
unexpected, whatever fsck outputs. -/
theorem load_contents_placeholder_spec
    (contentGet : Sha1Git → Option ContentRec)
    (dataGet : Sha1Git → Option String) (objIds : List Sha1Git)
    (i : Sha1Git) (hmem : i ∈ objIds)
    (hnoabs : ∀ j ∈ objIds, ∀ c, contentGet j = some c → c.status ≠ .absent) :
    ∃ out, loadContents contentGet dataGet objIds = .ok out ∧
      (contentGet i = none →
        (i, blobObject SKIPPED_MESSAGE) ∈ out.writes) ∧
      (∀ c, contentGet i = some c → c.status = .hidden →
        (i, blobObject HIDDEN_MESSAGE) ∈ out.writes) ∧
      ((contentGet i = none ∨
          ∃ c, contentGet i = some c ∧ c.status = .hidden) →
        (∀ e ∈ expectMismatchedObjectError i, e ∈ out.expectedFsckErrors) ∧
        ∀ fsckOutput e, e ∈ expectMismatchedObjectError i →
          e ∉ gitFsckUnexpected fsckOutput out.expectedFsckErrors) := by
  obtain ⟨ws, errs, vis, heq, hprops⟩ :=
    classifyContents_spec contentGet objIds hnoabs
  refine ⟨{ writes := ws ++ loadVisibleContents dataGet vis,
            expectedFsckErrors := errs }, ?_, ?_, ?_, ?_⟩
  · simp [loadContents, heq]
  · intro hnone
    exact List.mem_append.mpr (Or.inl ((hprops i hmem).1 hnone).1)
  · intro c hc hh
    exact List.mem_append.mpr (Or.inl (((hprops i hmem).2 c hc hh).1))
  · intro hcase
    have herrs : ∀ e ∈ expectMismatchedObjectError i, e ∈ errs := by
      rcases hcase with hnone | ⟨c, hc, hh⟩
      · exact ((hprops i hmem).1 hnone).2
      · exact ((hprops i hmem).2 c hc hh).2
    refine ⟨herrs, ?_⟩
    intro fsckOutput e he hcontra
    have hnc := (List.mem_filter.mp hcontra).2
    simp only [Bool.not_eq_true'] at hnc
    have : e ∈ errs := herrs e he
    rw [show (List.contains errs e) = true by
          simpa [List.elem_iff] using this] at hnc
    cases hnc

/-- C5 witness: concrete instantiation of
`load_contents_placeholder_spec` with one id whose lookup is `None`. -/
theorem load_contents_placeholder_witness :
    ∃ out, loadContents (fun _ => none) (fun _ => none) ["cc"] = .ok out ∧
      ((fun (_ : Sha1Git) => (none : Option ContentRec)) "cc" = none →
        ("cc", blobObject SKIPPED_MESSAGE) ∈ out.writes) ∧
      (∀ c, (fun (_ : Sha1Git) => (none : Option ContentRec)) "cc" = some c →
        c.status = .hidden → ("cc", blobObject HIDDEN_MESSAGE) ∈ out.writes) ∧
      (((fun (_ : Sha1Git) => (none : Option ContentRec)) "cc" = none ∨
          ∃ c, (fun (_ : Sha1Git) => (none : Option ContentRec)) "cc" = some c ∧
            c.status = .hidden) →
        (∀ e ∈ expectMismatchedObjectError "cc",
            e ∈ out.expectedFsckErrors) ∧
        ∀ fsckOutput e, e ∈ expectMismatchedObjectError "cc" →
          e ∉ gitFsckUnexpected fsckOutput out.expectedFsckErrors) :=
  load_contents_placeholder_spec (fun _ => none) (fun _ => none) ["cc"] "cc"
    (by decide) (fun j hj c hc => by simp at hc)


/-! Claim C1. -/

/-- The fresh row inserted by `create_task`, after the task id of the
dispatched task has been stored in it. -/
def freshRow (now : Nat) (bt sw : String) (sticky : Bool)
    (st : VaultState) : Bundle :=
  { rowId := st.nextRowId, btype := bt, swhid := sw,
    taskId := some st.nextTaskId, taskStatus := .new, sticky := sticky,
    tsCreated := now, tsDone := none, tsLastAccess := now,
    progressMsg := none }

/-- Helper: the state produced by a successful `create_task` — the
fresh `new` row is appended, rows with the same key get the dispatched
task's id (there are none when called from `cook`), and the task is
sent to the scheduler. -/
theorem createTask_ok (now : Nat) (bt sw : String) (sticky : Bool)
    (st : VaultState) :
    createTask true now bt sw sticky st = .ok
      { st with
        bundles := st.bundles.map
            (fun b => if isKey bt sw b then
                { b with taskId := some st.nextTaskId } else b)
          ++ [freshRow now bt sw sticky st],
        tasks := st.tasks ++ [(bt, sw)],
        nextRowId := st.nextRowId + 1,
        nextTaskId := st.nextTaskId + 1 } := by
  simp [createTask, freshRow, isKey]

/-- Helper: looking up the key in a list of non-matching rows followed
by the fresh row finds exactly the fresh row. -/
theorem progressOpt_no_match_append (now : Nat) (bt sw : String)
    (sticky : Bool) (st : VaultState) (l : List Bundle)
    (hl : ∀ b ∈ l, isKey bt sw b = false) :
    progressOpt (l ++ [freshRow now bt sw sticky st]) bt sw =
      some (freshRow now bt sw sticky st) := by
  rw [progressOpt, List.find?_append]
  rw [show l.find? (isKey bt sw) = none from
    List.find?_eq_none.mpr (fun b hb => by simp [hl b hb])]
  simp [List.find?_cons, freshRow, isKey]

/-- Helper: a list of non-matching rows followed by the fresh row
contains exactly one row with the key. -/
theorem countP_no_match_append (now : Nat) (bt sw : String)
    (sticky : Bool) (st : VaultState) (l : List Bundle)
    (hl : ∀ b ∈ l, isKey bt sw b = false) :
    (l ++ [freshRow now bt sw sticky st]).countP (isKey bt sw) = 1 := by
  rw [List.countP_append]
  rw [show l.countP (isKey bt sw) = 0 from
    List.countP_eq_zero.mpr (fun b hb => by simp [hl b hb])]
  simp [List.countP_cons, freshRow, isKey]

/-- C1: `cook` is idempotent and implements retry-after-failure, for a
registered bundle type whose root object exists (`checkExists = true`):
a row in state `new`/`pending`/`done` is returned as is, with no ledger
change and no task dispatched; a `failed` row is deleted and replaced
by a single fresh `new` row carrying a newly dispatched task, other
keys' rows untouched; with no row, one row is created and one task
dispatched, all previous rows untouched. -/
theorem cook_correct (cookerTypes : List String) (now : Nat)
    (bt sw : String) (sticky : Bool) (email : Option String)
    (st : VaultState) (hbt : bt ∈ cookerTypes) :
    (∀ r, progressOpt st.bundles bt sw = some r → r.taskStatus ≠ .failed →
      ∃ st1, cook cookerTypes true now bt sw sticky email st = .ok (r, st1) ∧
        st1.bundles = st.bundles ∧ st1.tasks = st.tasks) ∧
    (∀ r, progressOpt st.bundles bt sw = some r → r.taskStatus = .failed →
      ∃ r1 st1,
        cook cookerTypes true now bt sw sticky email st = .ok (r1, st1) ∧
        r1.taskStatus = .new ∧ r1.btype = bt ∧ r1.swhid = sw ∧
        r1.sticky = sticky ∧ r1.taskId = some st.nextTaskId ∧
        st1.bundles.countP (isKey bt sw) = 1 ∧
        st1.tasks = st.tasks ++ [(bt, sw)] ∧
        (∀ b ∈ st.bundles, isKey bt sw b = false → b ∈ st1.bundles)) ∧
    (progressOpt st.bundles bt sw = none →
      ∃ r1 st1,
        cook cookerTypes true now bt sw sticky email st = .ok (r1, st1) ∧
        r1.taskStatus = .new ∧ r1.btype = bt ∧ r1.swhid = sw ∧
        r1.sticky = sticky ∧ r1.taskId = some st.nextTaskId ∧
        st1.bundles.countP (isKey bt sw) = 1 ∧
        st1.tasks = st.tasks ++ [(bt, sw)] ∧
        (∀ b ∈ st.bundles, b ∈ st1.bundles)) := by
  have hcont : cookerTypes.contains bt = true := by
    simpa [List.elem_iff] using hbt
  refine ⟨?_, ?_, ?_⟩
  · -- existing non-failed row: returned as is
    intro r hp hnf
    cases email with
    | none =>
      exact ⟨st, by simp [cook, hcont, hbt, hp, hnf], rfl, rfl⟩
    | some e =>
      by_cases hrd : r.taskStatus = .done
      · exact ⟨sendNotification e bt sw r.taskStatus st,
          by simp [cook, hcont, hbt, hp, hnf, hrd, sendNotification],
          rfl, rfl⟩
      · exact ⟨addNotifEmail e bt sw st,
          by simp [cook, hcont, hbt, hp, hnf, hrd, addNotifEmail],
          rfl, rfl⟩
  · -- failed row: deleted, fresh row created, new task dispatched
    intro r hp hf
    have hD : ∀ b ∈ st.bundles.filter (fun b => !(isKey bt sw b)),
        isKey bt sw b = false := by
      intro b hb
      have h2 := (List.mem_filter.mp hb).2
      simpa [Bool.not_eq_true'] using h2
    have hmap : (st.bundles.filter (fun b => !(isKey bt sw b))).map
        (fun b => if isKey bt sw b then
            { b with taskId := some st.nextTaskId } else b)
        = st.bundles.filter (fun b => !(isKey bt sw b)) :=
      map_update_of_no_match hD
    have hct : createTask true now bt sw sticky (deleteBundle bt sw st) =
        .ok { st with
              bundles := st.bundles.filter (fun b => !(isKey bt sw b))
                ++ [freshRow now bt sw sticky st],
              tasks := st.tasks ++ [(bt, sw)],
              nextRowId := st.nextRowId + 1,
              nextTaskId := st.nextTaskId + 1 } := by
      rw [createTask_ok]
      simp only [deleteBundle]
      rw [hmap]
      rfl
    have hfind := progressOpt_no_match_append now bt sw sticky st
      (st.bundles.filter (fun b => !(isKey bt sw b))) hD
    have hcount := countP_no_match_append now bt sw sticky st
      (st.bundles.filter (fun b => !(isKey bt sw b))) hD
    have hmem : ∀ b ∈ st.bundles, isKey bt sw b = false →
        b ∈ st.bundles.filter (fun b => !(isKey bt sw b))
          ++ [freshRow now bt sw sticky st] := by
      intro b hb hk
      exact List.mem_append.mpr (Or.inl (List.mem_filter.mpr ⟨hb, by simp [hk]⟩))
    cases email with
    | none =>
      exact ⟨freshRow now bt sw sticky st,
        { st with
          bundles := st.bundles.filter (fun b => !(isKey bt sw b))
            ++ [freshRow now bt sw sticky st],
          tasks := st.tasks ++ [(bt, sw)],
          nextRowId := st.nextRowId + 1,
          nextTaskId := st.nextTaskId + 1 },
        by simp [cook, hcont, hbt, hp, hf, hct, hfind],
        rfl, rfl, rfl, rfl, rfl, hcount, rfl, hmem⟩
    | some e =>
      exact ⟨freshRow now bt sw sticky st,
        addNotifEmail e bt sw
          { st with
            bundles := st.bundles.filter (fun b => !(isKey bt sw b))
              ++ [freshRow now bt sw sticky st],
            tasks := st.tasks ++ [(bt, sw)],
            nextRowId := st.nextRowId + 1,
            nextTaskId := st.nextTaskId + 1 },
        by simp [cook, hcont, hbt, hp, hf, hct, hfind, addNotifEmail],
        rfl, rfl, rfl, rfl, rfl, hcount, rfl, hmem⟩
  · -- no row: created and dispatched
    intro hp
    have hall : ∀ b ∈ st.bundles, isKey bt sw b = false := by
      intro b hb
      have := List.find?_eq_none.mp hp b hb
      simpa [Bool.not_eq_true] using this
    have hmap : st.bundles.map
        (fun b => if isKey bt sw b then
            { b with taskId := some st.nextTaskId } else b) = st.bundles :=
      map_update_of_no_match hall
    have hct : createTask true now bt sw sticky st =
        .ok { st with
              bundles := st.bundles ++ [freshRow now bt sw sticky st],
              tasks := st.tasks ++ [(bt, sw)],
              nextRowId := st.nextRowId + 1,
              nextTaskId := st.nextTaskId + 1 } := by
      rw [createTask_ok, hmap]
    have hfind := progressOpt_no_match_append now bt sw sticky st
      st.bundles hall
    have hcount := countP_no_match_append now bt sw sticky st
      st.bundles hall
    have hmem : ∀ b ∈ st.bundles,
        b ∈ st.bundles ++ [freshRow now bt sw sticky st] :=
      fun b hb => List.mem_append.mpr (Or.inl hb)
    cases email with
    | none =>
      exact ⟨freshRow now bt sw sticky st,
        { st with
          bundles := st.bundles ++ [freshRow now bt sw sticky st],
          tasks := st.tasks ++ [(bt, sw)],
          nextRowId := st.nextRowId + 1,
          nextTaskId := st.nextTaskId + 1 },
        by simp [cook, hcont, hbt, hp, hct, hfind],
        rfl, rfl, rfl, rfl, rfl, hcount, rfl, hmem⟩
    | some e =>
      exact ⟨freshRow now bt sw sticky st,
        addNotifEmail e bt sw
          { st with
            bundles := st.bundles ++ [freshRow now bt sw sticky st],
            tasks := st.tasks ++ [(bt, sw)],
            nextRowId := st.nextRowId + 1,
            nextTaskId := st.nextTaskId + 1 },
        by simp [cook, hcont, hbt, hp, hct, hfind, addNotifEmail],
        rfl, rfl, rfl, rfl, rfl, hcount, rfl, hmem⟩

/-- A failed row used by the C1 witness. -/
def failedBundle : Bundle :=
  { rowId := 1, btype := "git_bare", swhid := "swh:1:rev:cd34",
    taskId := some 1, taskStatus := .failed, sticky := false,
    tsCreated := 1, tsDone := none, tsLastAccess := 1,
    progressMsg := some "error42" }

/-- A vault state holding one failed row, for the C1 witness. -/
def failedState : VaultState :=
  { bundles := [failedBundle], notifEmails := [], batches := [],
    batchBundles := [], cache := [], sentMails := [],
    tasks := [("git_bare", "swh:1:rev:cd34")], nextRowId := 2,
    nextTaskId := 2, nextBatchId := 1 }

/-- C1 witness: the retry-after-failure case of `cook_correct`
instantiated on a concrete failed row. -/
theorem cook_correct_witness :
    ∃ r1 st1,
      cook ["git_bare"] true 5 "git_bare" "swh:1:rev:cd34" false none
        failedState = .ok (r1, st1) ∧
      r1.taskStatus = .new ∧ r1.btype = "git_bare" ∧
      r1.swhid = "swh:1:rev:cd34" ∧ r1.sticky = false ∧
      r1.taskId = some failedState.nextTaskId ∧
      st1.bundles.countP (isKey "git_bare" "swh:1:rev:cd34") = 1 ∧
      st1.tasks = failedState.tasks ++ [("git_bare", "swh:1:rev:cd34")] ∧
      (∀ b ∈ failedState.bundles,
        isKey "git_bare" "swh:1:rev:cd34" b = false → b ∈ st1.bundles) :=
  (cook_correct ["git_bare"] 5 "git_bare" "swh:1:rev:cd34" false none
    failedState (by decide)).2.1 failedBundle (by rfl) (by rfl)

/-! Claim C3. -/

/-- The eviction ordering is transitive. -/
theorem tsLe_trans (byKey : String) (a b c : Bundle)
    (h1 : tsLe byKey a b = true) (h2 : tsLe byKey b c = true) :
    tsLe byKey a c = true := by
  simp only [tsLe, Bool.or_eq_true, Bool.and_eq_true, decide_eq_true_eq,
    beq_iff_eq] at h1 h2 ⊢
  omega

/-- The eviction ordering is total. -/
theorem tsLe_total (byKey : String) (a b : Bundle) :
    (tsLe byKey a b || tsLe byKey b a) = true := by
  simp only [tsLe, Bool.or_eq_true, Bool.and_eq_true, decide_eq_true_eq,
    beq_iff_eq]
  omega

/-- Deleting a blob from the cache makes its key unavailable. -/
theorem cacheGet_filter_self (c : List ((String × String) × String))
    (d : Bundle) :
    cacheGet (c.filter
        (fun e => !(e.1.1 == d.btype && e.1.2 == d.swhid)))
      d.btype d.swhid = none := by
  unfold cacheGet
  rw [find?_filter_not]
  rfl

/-- Deleting blobs never makes an absent key reappear. -/
theorem cacheGet_filter_none (c : List ((String × String) × String))
    (q : (String × String) × String → Bool) (bt sw : String)
    (h : cacheGet c bt sw = none) :
    cacheGet (c.filter q) bt sw = none := by
  unfold cacheGet at h ⊢
  rcases Option.map_eq_none'.mp h with hfind
  rw [List.Sublist.find?_eq_none (List.filter_sublist c) hfind]
  rfl

/-- Absent cache keys stay absent across the deletion loop of
`_cache_expire`. -/
theorem cacheGet_foldl_none (ds : List Bundle)
    (c : List ((String × String) × String)) (bt sw : String)
    (h : cacheGet c bt sw = none) :
    cacheGet (ds.foldl
        (fun acc d => acc.filter
          (fun e => !(e.1.1 == d.btype && e.1.2 == d.swhid))) c)
      bt sw = none := by
  induction ds generalizing c with
  | nil => exact h
  | cons d rest ih =>
    exact ih _ (cacheGet_filter_none c _ bt sw h)

/-- The deletion loop of `_cache_expire` removes the blob of every
deleted row. -/
theorem cacheGet_foldl_deleted (ds : List Bundle)
    (c : List ((String × String) × String)) (d : Bundle) (hd : d ∈ ds) :
    cacheGet (ds.foldl
        (fun acc d0 => acc.filter
          (fun e => !(e.1.1 == d0.btype && e.1.2 == d0.swhid))) c)
      d.btype d.swhid = none := by
  induction ds generalizing c with
  | nil => cases hd
  | cons d0 rest ih =>
    rcases List.mem_cons.mp hd with rfl | hdr
    · exact cacheGet_foldl_none rest _ d.btype d.swhid
        (cacheGet_filter_self c d)
    · exact ih _ hdr

/-- C3: for a valid ordering key and distinct row ids,
`cache_expire_oldest n` succeeds and deletes exactly the selection
`sel` — the first `n` rows of the non-sticky rows sorted by
`ts_{by}` — so: `min n (#non-sticky)` rows are deleted, every deleted
row is non-sticky, no sticky row is ever deleted, every deleted row's
timestamp is no larger than that of any surviving non-sticky row,
every deleted row's cached blob is removed, and when `n` covers all
non-sticky rows exactly the sticky rows remain (in particular, with N
rows of which one is sticky, `cache_expire_oldest N` deletes exactly
the N−1 non-sticky ones). -/
theorem cache_expire_oldest_spec (n : Nat) (byKey : String)
    (st : VaultState)
    (hby : byKey ∈ (["created", "done", "last_access"] : List String))
    (hids : (st.bundles.map (·.rowId)).Nodup) :
    ∃ st1, cacheExpireOldest n byKey st = .ok st1 ∧
      (((nonSticky st).mergeSort (tsLe byKey)).take n).length =
        min n (nonSticky st).length ∧
      (∀ b ∈ ((nonSticky st).mergeSort (tsLe byKey)).take n,
        b.sticky = false) ∧
      (∀ b ∈ st.bundles,
        b ∉ st1.bundles ↔
          b ∈ ((nonSticky st).mergeSort (tsLe byKey)).take n) ∧
      (∀ b ∈ st.bundles, b.sticky = true → b ∈ st1.bundles) ∧
      (∀ d ∈ ((nonSticky st).mergeSort (tsLe byKey)).take n,
        ∀ k ∈ st.bundles, k.sticky = false →
          k ∉ ((nonSticky st).mergeSort (tsLe byKey)).take n →
          tsLe byKey d k = true) ∧
      (∀ d ∈ ((nonSticky st).mergeSort (tsLe byKey)).take n,
        cacheGet st1.cache d.btype d.swhid = none) ∧
      ((nonSticky st).length ≤ n →
        ∀ b, b ∈ st1.bundles ↔ b ∈ st.bundles ∧ b.sticky = true) := by
  have hperm : ((nonSticky st).mergeSort (tsLe byKey)).Perm (nonSticky st) :=
    List.mergeSort_perm _ _
  have hres : cacheExpireOldest n byKey st =
      .ok (cacheExpireRows
        (((nonSticky st).mergeSort (tsLe byKey)).take n) st) := by
    simp only [List.mem_cons, List.not_mem_nil, or_false] at hby
    unfold cacheExpireOldest
    rcases hby with rfl | rfl | rfl <;> simp
  have hbundles : (cacheExpireRows
      (((nonSticky st).mergeSort (tsLe byKey)).take n) st).bundles =
      st.bundles.filter (fun b =>
        !(((((nonSticky st).mergeSort (tsLe byKey)).take n).map
          (·.rowId)).contains b.rowId)) := rfl
  have hselsub : ∀ b ∈ ((nonSticky st).mergeSort (tsLe byKey)).take n,
      b ∈ nonSticky st := fun b hb =>
    hperm.mem_iff.mp (List.take_subset n _ hb)
  have hselb : ∀ b ∈ ((nonSticky st).mergeSort (tsLe byKey)).take n,
      b ∈ st.bundles := fun b hb => (List.mem_filter.mp (hselsub b hb)).1
  have h2 : ∀ b ∈ ((nonSticky st).mergeSort (tsLe byKey)).take n,
      b.sticky = false := by
    intro b hb
    have := (List.mem_filter.mp (hselsub b hb)).2
    simpa [Bool.not_eq_true'] using this
  have hmemmap : ∀ x ∈ st.bundles,
      (x.rowId ∈ (((nonSticky st).mergeSort (tsLe byKey)).take n).map
        (·.rowId) ↔
       x ∈ ((nonSticky st).mergeSort (tsLe byKey)).take n) := by
    intro x hx
    constructor
    · intro hmap
      obtain ⟨a, ha, haid⟩ := List.mem_map.mp hmap
      have heq := List.inj_on_of_nodup_map hids (hselb a ha) hx haid
      rwa [← heq]
    · intro hsel1
      exact List.mem_map.mpr ⟨x, hsel1, rfl⟩
  have h3 : ∀ b ∈ st.bundles,
      b ∉ (cacheExpireRows
          (((nonSticky st).mergeSort (tsLe byKey)).take n) st).bundles ↔
        b ∈ ((nonSticky st).mergeSort (tsLe byKey)).take n := by
    intro b hb
    rw [hbundles]
    constructor
    · intro hnot
      by_contra hbs
      apply hnot
      refine List.mem_filter.mpr ⟨hb, ?_⟩
      have hnm : b.rowId ∉ (((nonSticky st).mergeSort
          (tsLe byKey)).take n).map (·.rowId) :=
        fun hmap => hbs ((hmemmap b hb).mp hmap)
      simpa [List.elem_iff] using hnm
    · intro hbs hmem1
      have hpred := (List.mem_filter.mp hmem1).2
      have : b.rowId ∈ (((nonSticky st).mergeSort
          (tsLe byKey)).take n).map (·.rowId) :=
        (hmemmap b hb).mpr hbs
      rw [show ((((nonSticky st).mergeSort (tsLe byKey)).take n).map
            (·.rowId)).contains b.rowId = true by
          simpa [List.elem_iff] using this] at hpred
      cases hpred
  have h4 : ∀ b ∈ st.bundles, b.sticky = true →
      b ∈ (cacheExpireRows
        (((nonSticky st).mergeSort (tsLe byKey)).take n) st).bundles := by
    intro b hb hsb
    by_contra hnot
    have hbs := (h3 b hb).mp hnot
    rw [h2 b hbs] at hsb
    cases hsb
  have h5 : ∀ d ∈ ((nonSticky st).mergeSort (tsLe byKey)).take n,
      ∀ k ∈ st.bundles, k.sticky = false →
        k ∉ ((nonSticky st).mergeSort (tsLe byKey)).take n →
        tsLe byKey d k = true := by
    have hsorted : List.Pairwise (fun a b => tsLe byKey a b = true)
        ((nonSticky st).mergeSort (tsLe byKey)) :=
      List.sorted_mergeSort (fun a b c => tsLe_trans byKey a b c)
        (fun a b => tsLe_total byKey a b) (nonSticky st)
    have hsp : List.Pairwise (fun a b => tsLe byKey a b = true)
        (((nonSticky st).mergeSort (tsLe byKey)).take n ++
         ((nonSticky st).mergeSort (tsLe byKey)).drop n) := by
      rw [List.take_append_drop]
      exact hsorted
    intro d hd k hk hks hknot
    have hkns : k ∈ nonSticky st :=
      List.mem_filter.mpr ⟨hk, by simp [hks]⟩
    have hksl : k ∈ ((nonSticky st).mergeSort (tsLe byKey)).take n ++
        ((nonSticky st).mergeSort (tsLe byKey)).drop n := by
      rw [List.take_append_drop]
      exact hperm.mem_iff.mpr hkns
    rcases List.mem_append.mp hksl with hkt | hkd
    · exact absurd hkt hknot
    · exact (List.pairwise_append.mp hsp).2.2 d hd k hkd
  have h6 : ∀ d ∈ ((nonSticky st).mergeSort (tsLe byKey)).take n,
      cacheGet (cacheExpireRows
        (((nonSticky st).mergeSort (tsLe byKey)).take n) st).cache
        d.btype d.swhid = none := by
    intro d hd
    exact cacheGet_foldl_deleted _ st.cache d hd
  have h7 : (nonSticky st).length ≤ n →
      ∀ b, b ∈ (cacheExpireRows
          (((nonSticky st).mergeSort (tsLe byKey)).take n) st).bundles ↔
        b ∈ st.bundles ∧ b.sticky = true := by
    intro hn b
    have hall : ((nonSticky st).mergeSort (tsLe byKey)).take n =
        (nonSticky st).mergeSort (tsLe byKey) :=
      List.take_of_length_le (by rw [hperm.length_eq]; exact hn)
    constructor
    · intro hb1
      have hbb : b ∈ st.bundles := by
        rw [hbundles] at hb1
        exact (List.mem_filter.mp hb1).1
      refine ⟨hbb, ?_⟩
      by_contra hnot
      have hbf : b.sticky = false := by
        revert hnot
        cases b.sticky <;> simp
      have hbns : b ∈ nonSticky st := List.mem_filter.mpr ⟨hbb, by simp [hbf]⟩
      have hbs : b ∈ ((nonSticky st).mergeSort (tsLe byKey)).take n := by
        rw [hall]
        exact hperm.mem_iff.mpr hbns
      exact ((h3 b hbb).mpr hbs) hb1
    · rintro ⟨hbb, hbs⟩
      exact h4 b hbb hbs
  have h1 : (((nonSticky st).mergeSort (tsLe byKey)).take n).length =
      min n (nonSticky st).length := by
    rw [List.length_take, hperm.length_eq]
  exact ⟨_, hres, h1, h2, h3, h4, h5, h6, h7⟩

/-- A three-row ledger (the second row sticky) with all three blobs
cached, for the C3 witness: evicting 3 must delete exactly the two
non-sticky rows. -/
def evictionState : VaultState :=
  { bundles :=
      [{ rowId := 1, btype := "git_bare", swhid := "swh:1:dir:a1",
         taskId := some 1, taskStatus := .done, sticky := false,
         tsCreated := 1, tsDone := some 2, tsLastAccess := 7,
         progressMsg := none },
       { rowId := 2, btype := "git_bare", swhid := "swh:1:dir:a2",
         taskId := some 2, taskStatus := .done, sticky := true,
         tsCreated := 2, tsDone := some 3, tsLastAccess := 4,
         progressMsg := none },
       { rowId := 3, btype := "git_bare", swhid := "swh:1:dir:a3",
         taskId := some 3, taskStatus := .done, sticky := false,
         tsCreated := 3, tsDone := some 4, tsLastAccess := 5,
         progressMsg := none }],
    notifEmails := [], batches := [], batchBundles := [],
    cache := [(("git_bare", "swh:1:dir:a1"), "B1"),
              (("git_bare", "swh:1:dir:a2"), "B2"),
              (("git_bare", "swh:1:dir:a3"), "B3")],
    sentMails := [], tasks := [], nextRowId := 4, nextTaskId := 4,
    nextBatchId := 1 }

/-- C3 witness: concrete instantiation of `cache_expire_oldest_spec`
on `evictionState` with `n = 3`. -/
theorem cache_expire_oldest_witness :
    ∃ st1, cacheExpireOldest 3 "last_access" evictionState = .ok st1 ∧
      (((nonSticky evictionState).mergeSort
          (tsLe "last_access")).take 3).length =
        min 3 (nonSticky evictionState).length ∧
      (∀ b ∈ ((nonSticky evictionState).mergeSort
          (tsLe "last_access")).take 3, b.sticky = false) ∧
      (∀ b ∈ evictionState.bundles,
        b ∉ st1.bundles ↔
          b ∈ ((nonSticky evictionState).mergeSort
            (tsLe "last_access")).take 3) ∧
      (∀ b ∈ evictionState.bundles, b.sticky = true → b ∈ st1.bundles) ∧
      (∀ d ∈ ((nonSticky evictionState).mergeSort
          (tsLe "last_access")).take 3,
        ∀ k ∈ evictionState.bundles, k.sticky = false →
          k ∉ ((nonSticky evictionState).mergeSort
            (tsLe "last_access")).take 3 →
          tsLe "last_access" d k = true) ∧
      (∀ d ∈ ((nonSticky evictionState).mergeSort
          (tsLe "last_access")).take 3,
        cacheGet st1.cache d.btype d.swhid = none) ∧
      ((nonSticky evictionState).length ≤ 3 →
        ∀ b, b ∈ st1.bundles ↔ b ∈ evictionState.bundles ∧
          b.sticky = true) :=
  cache_expire_oldest_spec 3 "last_access" evictionState (by decide)
    (by decide)
